import Mathlib

/-!
Verification of the Chord ring implementation in `src/server.ts`.

The embedding follows the source file closely:
* `hashToID` embeds the function of the same name; the external SHA-1 digest
  (Node's `crypto` module) is represented by its byte list, and the whole
  hashing pipeline `str ↦ hashToID(sha1(str), m)` is abstracted as a
  parameter `hashF : String → Nat → Nat` wherever the code hashes strings.
* `inInterval` embeds the circular interval test.
* `NodeState` embeds the mutable fields of `class Node`; `NodeData` embeds the
  state a node publishes on its `/info` endpoint, and `fetchNodeInfo` embeds
  the reconstruction of a `Node` object from such published data.
* Remote fetches are modelled by an oracle `net : String → Option NodeData`
  (`none` = the HTTP request fails / peer unreachable).
* The `findSuccessor` / `findPredecessor` while-loops are embedded with an
  explicit fuel parameter; running out of fuel (`LookupError.outOfFuel`) is
  the embedding's marker for a loop that has not terminated yet.
-/

namespace Chord

/-- Embedding of `hashToID` from `src/server.ts` (lines 9–27), as a function of
the digest bytes produced by the external SHA-1 call: take the leading
`ceil(m/8)` bytes as a big-endian unsigned integer and shift off the excess
low-order bits so exactly `m` bits remain. -/
def hashToID (hash : List Nat) (m : Nat) : Nat :=
  let bytesNeeded := (m + 7) / 8
  let sliced := hash.take bytesNeeded
  let id := sliced.foldl (fun acc b => acc * 256 + b) 0
  let excessBits := bytesNeeded * 8 - m
  if excessBits > 0 then id / 2 ^ excessBits else id

/-- Embedding of `inInterval` from `src/server.ts` (lines 30–36): membership of
`key` in the circular interval `(start, stop]` on a ring of size `ringSize`. -/
def inInterval (key start stop ringSize : Nat) : Bool :=
  if start < stop then
    decide (start < key) && decide (key ≤ stop)
  else
    (decide (start < key) && decide (key < ringSize)) ||
      (decide (0 ≤ key) && decide (key ≤ stop))

/-- Embedding of `interface NodeEntry`: a by-value reference to a peer. -/
structure NodeEntry where
  id : Nat
  url : String
deriving Repr, DecidableEq

/-- Embedding of the values stored in `Node.kvStore`. -/
structure KeyValueEntry where
  originalKey : String
  value : String
deriving Repr, DecidableEq

/-- Embedding of the mutable fields of `class Node` (`src/server.ts` lines
43–64). The key-value store is an association list keyed by identifier. -/
structure NodeState where
  id : Nat
  url : String
  m : Nat
  ringSize : Nat
  fingerTable : List (Option NodeEntry)
  predecessor : Option NodeEntry
  successor : NodeEntry
  stabilizeInterval : Nat
  kvStore : List (Nat × KeyValueEntry)
deriving Repr, DecidableEq

/-- The entry `{ id: this.id, url: this.url }` a node builds for itself. -/
def NodeState.selfEntry (s : NodeState) : NodeEntry :=
  { id := s.id, url := s.url }

/-- Embedding of the `Node` constructor (`src/server.ts` lines 54–64):
`id = hashToID(url, m)`, `ringSize = 2^m`, finger table of `m` empty slots,
no predecessor, successor pointing at itself, empty key-value store. -/
def mkNode (hashF : String → Nat → Nat) (url : String) (m : Nat)
    (stabilizeInterval : Nat) : NodeState :=
  { id := hashF url m
    url := url
    m := m
    ringSize := 2 ^ m
    fingerTable := List.replicate m none
    predecessor := none
    successor := { id := hashF url m, url := url }
    stabilizeInterval := stabilizeInterval
    kvStore := [] }

/-- The state a node publishes on its `/info` endpoint (`src/server.ts` lines
168–184), restricted to the fields `fetchNodeInfo` consumes. -/
structure NodeData where
  url : String
  m : Nat
  stabilizeInterval : Nat
  predecessor : Option NodeEntry
  successor : NodeEntry
  fingerTable : List (Option NodeEntry)
deriving Repr, DecidableEq

/-- The published image of a node's current state. -/
def publishData (s : NodeState) : NodeData :=
  { url := s.url
    m := s.m
    stabilizeInterval := s.stabilizeInterval
    predecessor := s.predecessor
    successor := s.successor
    fingerTable := s.fingerTable }

/-- Embedding of `fetchNodeInfo` (`src/server.ts` lines 141–149): rebuild a
`Node` object from published data — the constructor rederives the identifier
from the published url, then the predecessor, successor and finger table are
copied from the response verbatim. -/
def fetchNodeInfo (hashF : String → Nat → Nat) (data : NodeData) : NodeState :=
  { mkNode hashF data.url data.m data.stabilizeInterval with
    predecessor := data.predecessor
    successor := data.successor
    fingerTable := data.fingerTable }

/-- The descending scan inside `closestPrecedingNode` (`src/server.ts` lines
90–95), written on the reversed finger table: skip empty slots, return the
first entry whose identifier lies in `(selfId, key]`. -/
def cpnScan (selfId key ringSize : Nat) :
    List (Option NodeEntry) → Option NodeEntry
  | [] => none
  | none :: rest => cpnScan selfId key ringSize rest
  | some ft :: rest =>
    if inInterval ft.id selfId key ringSize then some ft
    else cpnScan selfId key ringSize rest

/-- Embedding of `Node.closestPrecedingNode` (`src/server.ts` lines 89–97). -/
def closestPrecedingNode (self : NodeState) (key : Nat) : NodeEntry :=
  (cpnScan self.id key self.ringSize self.fingerTable.reverse).getD self.selfEntry

/-- Failure modes of the embedded lookup loop. `fetchFailed` models a rejected
remote `/info` request; `outOfFuel` is the embedding's marker for a loop
iteration budget that ran out. -/
inductive LookupError where
  | fetchFailed
  | outOfFuel
deriving Repr, DecidableEq

/-- Embedding of the while-loop shared by `Node.findSuccessor` and
`Node.findPredecessor` (`src/server.ts` lines 70–74 and 81–85): while the key
is not in `(current.id, current.successor.id]`, take the closest preceding
node; break when its identifier equals the current node's identifier,
otherwise fetch its published state and continue from it. Returns the node
the loop terminates on. -/
def lookupLoop (hashF : String → Nat → Nat) (net : String → Option NodeData)
    (key : Nat) : Nat → NodeState → Except LookupError NodeState
  | 0, _ => .error .outOfFuel
  | fuel + 1, cur =>
    if inInterval key cur.id cur.successor.id cur.ringSize then .ok cur
    else
      let cpNode := closestPrecedingNode cur key
      if cpNode.id = cur.id then .ok cur
      else
        match net cpNode.url with
        | none => .error .fetchFailed
        | some data => lookupLoop hashF net key fuel (fetchNodeInfo hashF data)

/-- Embedding of `Node.findSuccessor` (`src/server.ts` lines 67–76): hash the
key string with this node's `m`, run the loop, return the successor field of
the node the loop terminates on. -/
def findSuccessor (hashF : String → Nat → Nat) (net : String → Option NodeData)
    (self : NodeState) (keyStr : String) (fuel : Nat) :
    Except LookupError NodeEntry :=
  (lookupLoop hashF net (hashF keyStr self.m) fuel self).map (·.successor)

/-- Embedding of `Node.findPredecessor` (`src/server.ts` lines 78–87): same
loop, returning the terminating node itself. -/
def findPredecessor (hashF : String → Nat → Nat) (net : String → Option NodeData)
    (self : NodeState) (keyStr : String) (fuel : Nat) :
    Except LookupError NodeState :=
  lookupLoop hashF net (hashF keyStr self.m) fuel self

/-- Embedding of `Node.join` (`src/server.ts` lines 100–110). With no existing
node: predecessor, successor and finger slot 0 all become the node's own
entry. With an existing node: fetch its state, run `findSuccessor` on this
node's own url from that snapshot, adopt the result as successor, clear the
predecessor, and set finger slot 0 to the new successor. -/
def join (hashF : String → Nat → Nat) (net : String → Option NodeData)
    (self : NodeState) (existingNodeUrl : Option String) (fuel : Nat) :
    Except LookupError NodeState :=
  match existingNodeUrl with
  | none =>
    .ok { self with
            predecessor := some self.selfEntry
            successor := self.selfEntry
            fingerTable := self.fingerTable.set 0 (some self.selfEntry) }
  | some url =>
    match net url with
    | none => .error .fetchFailed
    | some data =>
      match findSuccessor hashF net (fetchNodeInfo hashF data) self.url fuel with
      | .error e => .error e
      | .ok succ =>
        .ok { self with
                predecessor := none
                successor := succ
                fingerTable := self.fingerTable.set 0 (some succ) }

/-- Embedding of `Node.notify` (`src/server.ts` lines 122–126): adopt the
candidate as predecessor when there is none, or when the candidate's url
hashes into `(hash(predecessor.url), self.id]`. -/
def notify (hashF : String → Nat → Nat) (self : NodeState) (node : NodeEntry) :
    NodeState :=
  match self.predecessor with
  | none => { self with predecessor := some node }
  | some p =>
    if inInterval (hashF node.url self.m) (hashF p.url self.m) self.id
        self.ringSize then
      { self with predecessor := some node }
    else self

/-- Embedding of the `/notify` endpoint (`src/server.ts` lines 192–197): the
receiver rebuilds the candidate entry from the posted url, rederiving its
identifier with its own `m`, and calls `notify`. -/
def notifyEndpoint (hashF : String → Nat → Nat) (self : NodeState)
    (senderUrl : String) : NodeState :=
  notify hashF self { id := hashF senderUrl self.m, url := senderUrl }

/-- Embedding of `Node.stabilize` (`src/server.ts` lines 112–120). Returns the
possibly-updated state together with the notify message the node then posts:
`(target url, sender url)` — the `/notify` receiver only uses the sender's
url. `none` as second component means the early return fired and no notify
is sent. A failed fetch of the successor's state propagates as an error
(there is no try/catch in the source). -/
def stabilize (hashF : String → Nat → Nat) (net : String → Option NodeData)
    (self : NodeState) :
    Except LookupError (NodeState × Option (String × String)) :=
  if self.successor.id = self.id ∧ self.predecessor = none then .ok (self, none)
  else
    match net self.successor.url with
    | none => .error .fetchFailed
    | some data =>
      let succNode := fetchNodeInfo hashF data
      let self' :=
        match succNode.predecessor with
        | some x =>
          if inInterval x.id self.id self.successor.id self.ringSize then
            { self with successor := x }
          else self
        | none => self
      .ok (self', some (self'.successor.url, self.url))

/-- Embedding of `Node.fixFingers` (`src/server.ts` lines 128–134),
parameterised by the outcome `randomIndex` of
`Math.floor(Math.random() * fingerTable.length)`: compute
`start = (id + 2^randomIndex) mod ringSize`, look up the successor of the key
string `url#finger<start>`, and store it at the chosen slot. -/
def fixFingers (hashF : String → Nat → Nat) (net : String → Option NodeData)
    (self : NodeState) (randomIndex : Nat) (fuel : Nat) :
    Except LookupError NodeState :=
  let start := (self.id + 2 ^ randomIndex) % self.ringSize
  let startKeyStr := self.url ++ "#finger" ++ toString start
  match findSuccessor hashF net self startKeyStr fuel with
  | .error e => .error e
  | .ok succ =>
    .ok { self with fingerTable := self.fingerTable.set randomIndex (some succ) }

/-- Embedding of `Node.checkPredecessor` (`src/server.ts` lines 136–138): a
placeholder that does nothing. -/
def checkPredecessor (self : NodeState) : NodeState := self

/-- Embedding of the periodic maintenance callback registered with
`setInterval` (`src/server.ts` lines 291–295): run `stabilize`, then
`fixFingers`, then `checkPredecessor`. The source wraps none of these in a
try/catch, so any error propagates out of the callback. -/
def scheduledTick (hashF : String → Nat → Nat) (net : String → Option NodeData)
    (self : NodeState) (randomIndex : Nat) (fuel : Nat) :
    Except LookupError NodeState :=
  match stabilize hashF net self with
  | .error e => .error e
  | .ok (s1, _msg) =>
    match fixFingers hashF net s1 randomIndex fuel with
    | .error e => .error e
    | .ok s2 => .ok (checkPredecessor s2)

/-- `Map.set` on the embedded key-value store: replace the entry for the key
if present, otherwise append it. -/
def kvSet (store : List (Nat × KeyValueEntry)) (k : Nat) (v : KeyValueEntry) :
    List (Nat × KeyValueEntry) :=
  if store.any (fun p => p.1 = k) then
    store.map (fun p => if p.1 = k then (k, v) else p)
  else store ++ [(k, v)]

/-- Outcomes of the `/put` handler. -/
inductive PutResult where
  | ttlExpired
  | storedLocally (url : String)
  | relayed (resp : String)
  | forwardFailed (msg : String)
  | lookupFailed (e : LookupError)
deriving Repr, DecidableEq

/-- Embedding of the `/put` handler (`src/server.ts` lines 220–245). `fwd`
models the outgoing `axios.post` to the owner's `/put` endpoint (arguments:
target url, key, value, ttl). Returns the HTTP outcome and the node's
key-value store state after the request. -/
def putHandler (hashF : String → Nat → Nat) (net : String → Option NodeData)
    (fwd : String → String → String → Int → Except String String)
    (self : NodeState) (key value : String) (ttl : Int) (fuel : Nat) :
    PutResult × NodeState :=
  if ttl ≤ 0 then (.ttlExpired, self)
  else
    let keyID := hashF key self.m
    match findSuccessor hashF net self key fuel with
    | .error e => (.lookupFailed e, self)
    | .ok succ =>
      if succ.url = self.url then
        (.storedLocally self.url,
          { self with kvStore := kvSet self.kvStore keyID ⟨key, value⟩ })
      else
        match fwd succ.url key value (ttl - 1) with
        | .ok r => (.relayed r, self)
        | .error msg => (.forwardFailed msg, self)

/-- Written from the spec's words (§4.2): "scan the finger table from the
highest index to the lowest; return the first entry whose identifier lies in
`(self.identifier, key]` (using inInterval); if none qualifies, return
self." Stated as the first qualifying entry of the reversed finger table. -/
def specClosestPrecedingNode (self : NodeState) (key : Nat) : NodeEntry :=
  (self.fingerTable.reverse.findSome? (fun slot =>
      slot.bind (fun ft =>
        if inInterval ft.id self.id key self.ringSize then some ft
        else none))).getD self.selfEntry

/-- Written from the spec's words (§4.2): "while the key identifier is not in
`(current.identifier, current.successor.identifier]`, ask current for its
closest preceding node; if that candidate equals current (no progress
possible), stop; otherwise fetch the candidate's full published state from
the network and continue the loop from it. Return the successor field of the
node the loop terminates on." Node equality is identifier equality. -/
def specFindSuccessorLoop (hashF : String → Nat → Nat)
    (net : String → Option NodeData) (key : Nat) :
    Nat → NodeState → Except LookupError NodeEntry
  | 0, _ => .error .outOfFuel
  | fuel + 1, cur =>
    if inInterval key cur.id cur.successor.id cur.ringSize then .ok cur.successor
    else
      let candidate := specClosestPrecedingNode cur key
      if candidate.id = cur.id then .ok cur.successor
      else
        match net candidate.url with
        | none => .error .fetchFailed
        | some data =>
          specFindSuccessorLoop hashF net key fuel (fetchNodeInfo hashF data)

/-- The spec-side `findSuccessor`: compute the key's identifier, then run the
spec-described loop. -/
def specFindSuccessor (hashF : String → Nat → Nat)
    (net : String → Option NodeData) (self : NodeState) (keyStr : String)
    (fuel : Nat) : Except LookupError NodeEntry :=
  specFindSuccessorLoop hashF net (hashF keyStr self.m) fuel self

/-- One stabilization round of node `a` against the node `b` its successor
pointer designates: `a` runs `stabilize` (the fetch of `a.successor.url`
returns `b`'s published state) and the notify it sends, if any, is delivered
to `b`'s `/notify` endpoint. -/
def stabilizeRound (hashF : String → Nat → Nat) (p : NodeState × NodeState) :
    NodeState × NodeState :=
  match stabilize hashF
      (fun u => if u = p.1.successor.url then some (publishData p.2) else none)
      p.1 with
  | .error _ => p
  | .ok (a', none) => (a', p.2)
  | .ok (a', some (_target, senderUrl)) =>
    (a', notifyEndpoint hashF p.2 senderUrl)

/-- Non-termination of the lookup loop in the fuel model: every iteration
budget is exhausted. -/
def lookupDiverges (hashF : String → Nat → Nat) (net : String → Option NodeData)
    (key : Nat) (s : NodeState) : Prop :=
  ∀ fuel, lookupLoop hashF net key fuel s = .error .outOfFuel

/-- Clockwise ring distance from a node's identifier to a key. -/
def clockwiseDist (key : Nat) (s : NodeState) : Nat :=
  (key + s.ringSize - s.id) % s.ringSize

/-- A stand-in for the external SHA-1 digest pipeline in concrete scenarios:
every string hashes to identifier 0. -/
def demoHash : String → Nat → Nat := fun _ _ => 0

/-- A network on which every remote fetch fails. -/
def failNet : String → Option NodeData := fun _ => none

/-- A single-node ring at url `"u"` (the state after `join(null)` on a fresh
node with `m = 5` under `demoHash`). -/
def demoSolo : NodeState :=
  { id := 0
    url := "u"
    m := 5
    ringSize := 32
    fingerTable := (List.replicate 5 (none : Option NodeEntry)).set 0
      (some { id := 0, url := "u" })
    predecessor := some { id := 0, url := "u" }
    successor := { id := 0, url := "u" }
    stabilizeInterval := 1000
    kvStore := [] }

/-- A stand-in digest pipeline that sends url `"uA"` to identifier 10 and
everything else to 0. -/
def cexHash : String → Nat → Nat := fun s _ => if s = "uA" then 10 else 0

/-- Published data that the network serves for url `"uB"` in the divergence
scenario: it claims url `"uA"` (so the rebuilt node has identifier 10),
successor identifier 11, and a single finger entry `⟨11, "uB"⟩`. -/
def cexData : NodeData :=
  { url := "uA"
    m := 5
    stabilizeInterval := 1000
    predecessor := none
    successor := { id := 11, url := "uB" }
    fingerTable := [some { id := 11, url := "uB" }] }

/-- The divergence network: fetching `"uB"` yields `cexData`, everything else
fails. -/
def cexNet : String → Option NodeData :=
  fun u => if u = "uB" then some cexData else none

/-- The lookup state the divergence scenario loops on: exactly the node
rebuilt from `cexData`. -/
def cexState : NodeState := fetchNodeInfo cexHash cexData

/-- A network on which the solo node at `"u"` is reachable and everything
else fails. -/
def demoNet : String → Option NodeData :=
  fun u => if u = "u" then some (publishData demoSolo) else none

/-- A stand-in digest pipeline sending the key `"k"` to identifier 3 and
everything else to 0. -/
def demoHashK : String → Nat → Nat := fun s _ => if s = "k" then 3 else 0

/-- A node at url `"u1"` (identifier 0) whose successor is a different node
with identifier 5 at url `"u2"`: the owner of key `"k"` (identifier 3) is the
successor, not this node. -/
def demoFwdNode : NodeState :=
  { mkNode demoHashK "u1" 5 1000 with successor := { id := 5, url := "u2" } }

/-! ### Helper lemmas -/

/-- A degenerate interval whose start equals the probed key contains the key
iff the interval's end equals the key as well. -/
theorem inInterval_self_start_iff (s t R : Nat) :
    inInterval s s t R = true ↔ t = s := by
  simp only [inInterval]
  split <;> simp <;> omega

/-- Folding bytes smaller than 256 into a big-endian accumulator stays below
`(acc + 1) * 256 ^ length`. -/
theorem foldl_bytes_lt (l : List Nat) :
    ∀ a : Nat, (∀ b ∈ l, b < 256) →
      l.foldl (fun acc b => acc * 256 + b) a < (a + 1) * 256 ^ l.length := by
  induction l with
  | nil => intro a _; simp
  | cons x t ih =>
    intro a hb
    have hx : x < 256 := hb x (List.mem_cons_self x t)
    have ht : ∀ b ∈ t, b < 256 := fun b h => hb b (List.mem_cons_of_mem _ h)
    calc t.foldl (fun acc b => acc * 256 + b) (a * 256 + x)
        < (a * 256 + x + 1) * 256 ^ t.length := ih (a * 256 + x) ht
      _ ≤ ((a + 1) * 256) * 256 ^ t.length := by
          have : a * 256 + x + 1 ≤ (a + 1) * 256 := by omega
          exact Nat.mul_le_mul_right _ this
      _ = (a + 1) * 256 ^ (t.length + 1) := by ring

/-- The descending finger-table scan is the first hit of the reversed table. -/
theorem cpnScan_eq_findSome (selfId key ringSize : Nat)
    (l : List (Option NodeEntry)) :
    cpnScan selfId key ringSize l =
      l.findSome? (fun slot => slot.bind (fun ft =>
        if inInterval ft.id selfId key ringSize then some ft else none)) := by
  induction l with
  | nil => rfl
  | cons slot rest ih =>
    cases slot with
    | none => simpa [cpnScan, List.findSome?_cons] using ih
    | some ft =>
      by_cases h : inInterval ft.id selfId key ringSize
      · simp [cpnScan, List.findSome?_cons, h]
      · simpa [cpnScan, List.findSome?_cons, h] using ih

/-- The source scan and the spec's "highest index first" description pick the
same candidate. -/
theorem closestPrecedingNode_eq_spec (self : NodeState) (key : Nat) :
    closestPrecedingNode self key = specClosestPrecedingNode self key := by
  unfold closestPrecedingNode specClosestPrecedingNode
  rw [cpnScan_eq_findSome]

/-- The embedded lookup loop, projected to the successor of the terminating
node, equals the spec-described loop. -/
theorem lookupLoop_eq_specLoop (hashF : String → Nat → Nat)
    (net : String → Option NodeData) (key : Nat) :
    ∀ (fuel : Nat) (cur : NodeState),
      (lookupLoop hashF net key fuel cur).map (·.successor) =
        specFindSuccessorLoop hashF net key fuel cur := by
  intro fuel
  induction fuel with
  | zero => intro cur; rfl
  | succ n ih =>
    intro cur
    simp only [lookupLoop, specFindSuccessorLoop, ← closestPrecedingNode_eq_spec]
    by_cases h1 : inInterval key cur.id cur.successor.id cur.ringSize
    · simp [h1, Except.map]
    · by_cases h2 : (closestPrecedingNode cur key).id = cur.id
      · simp [h1, h2, Except.map]
      · cases hnet : net (closestPrecedingNode cur key).url with
        | none => simp [h1, h2, hnet, Except.map]
        | some data => simp [h1, h2, hnet, ih]

/-- One stabilization round on a consistent pair is the identity: the node's
successor pointer already names `b`, `b`'s stored predecessor is the node's
own entry, and node identifiers are the hashes of their urls. -/
theorem stabilizeRound_fixed (hashF : String → Nat → Nat) (a b : NodeState)
    (hpred : b.predecessor = some a.selfEntry)
    (hhash : hashF a.url b.m = a.id)
    (hdeg : a.successor.id = a.id → a.successor.url = a.url) :
    stabilizeRound hashF (a, b) = (a, b) := by
  by_cases g : a.successor.id = a.id ∧ a.predecessor = none
  · simp only [stabilizeRound, stabilize]
    rw [if_pos g]
  · have hIa : (inInterval a.id a.id a.successor.id a.ringSize = true) ↔
        a.successor.id = a.id := inInterval_self_start_iff a.id a.successor.id a.ringSize
    have hself' : (if inInterval a.selfEntry.id a.id a.successor.id a.ringSize
        then { a with successor := a.selfEntry } else a) = a := by
      by_cases e : a.successor.id = a.id
      · have hI : inInterval a.selfEntry.id a.id a.successor.id a.ringSize = true := by
          show inInterval a.id a.id a.successor.id a.ringSize = true
          exact hIa.mpr e
        rw [if_pos hI]
        have hae : a.selfEntry = a.successor := by
          show (⟨a.id, a.url⟩ : NodeEntry) = a.successor
          have h1 : a.successor = ⟨a.successor.id, a.successor.url⟩ := rfl
          rw [h1, e, hdeg e]
        rw [hae]
      · have hI : ¬ inInterval a.selfEntry.id a.id a.successor.id a.ringSize = true := by
          show ¬ inInterval a.id a.id a.successor.id a.ringSize = true
          exact fun h => e (hIa.mp h)
        rw [if_neg hI]
    have hstab : stabilize hashF
        (fun u => if u = a.successor.url then some (publishData b) else none) a =
        .ok (a, some (a.successor.url, a.url)) := by
      simp only [stabilize]
      rw [if_neg g, if_pos trivial]
      show Except.ok
          ((match (fetchNodeInfo hashF (publishData b)).predecessor with
            | some x => if inInterval x.id a.id a.successor.id a.ringSize
                then { a with successor := x } else a
            | none => a),
            some ((match (fetchNodeInfo hashF (publishData b)).predecessor with
              | some x => if inInterval x.id a.id a.successor.id a.ringSize
                  then { a with successor := x } else a
              | none => a).successor.url, a.url)) =
        Except.ok (a, some (a.successor.url, a.url))
      have hbp : (fetchNodeInfo hashF (publishData b)).predecessor = b.predecessor := rfl
      rw [hbp, hpred]
      show Except.ok
        ((if inInterval a.selfEntry.id a.id a.successor.id a.ringSize
            then { a with successor := a.selfEntry } else a),
          some ((if inInterval a.selfEntry.id a.id a.successor.id a.ringSize
            then { a with successor := a.selfEntry } else a).successor.url, a.url)) =
        Except.ok (a, some (a.successor.url, a.url))
      rw [hself']
    have hnotify : notifyEndpoint hashF b a.url = b := by
      show notify hashF b ⟨hashF a.url b.m, a.url⟩ = b
      simp only [notify]
      rw [hpred]
      show (if inInterval (hashF a.url b.m) (hashF a.selfEntry.url b.m) b.id b.ringSize
          then { b with predecessor := some ⟨hashF a.url b.m, a.url⟩ } else b) = b
      have hpu : a.selfEntry.url = a.url := rfl
      rw [hpu, hhash]
      have hIb : (inInterval a.id a.id b.id b.ringSize = true) ↔ b.id = a.id :=
        inInterval_self_start_iff a.id b.id b.ringSize
      by_cases e2 : b.id = a.id
      · rw [if_pos (hIb.mpr e2)]
        have : (⟨a.id, a.url⟩ : NodeEntry) = a.selfEntry := rfl
        rw [this, ← hpred]
      · rw [if_neg (fun h => e2 (hIb.mp h))]
    show (match stabilize hashF
        (fun u => if u = a.successor.url then some (publishData b) else none) a with
      | .error _ => (a, b)
      | .ok (a', none) => (a', b)
      | .ok (a', some (_target, senderUrl)) =>
        (a', notifyEndpoint hashF b senderUrl)) = (a, b)
    rw [hstab]
    show (a, notifyEndpoint hashF b a.url) = (a, b)
    rw [hnotify]

/-! ### Claim theorems -/

/-- C1: `inInterval(key, start, end, ringSize)` returns true iff `key` lies
strictly after `start` and at-or-before `end` walking clockwise: for
`start < end` iff `start < key ≤ end`, and for `start ≥ end` iff
`key > start` or `key ≤ end` (for identifiers on the ring, i.e.
`key < ringSize`); moreover for `ringSize = 32`:
`inInterval(20,10,25,32) = true`, `inInterval(25,25,5,32) = false`,
`inInterval(30,25,5,32) = true`, `inInterval(5,10,25,32) = false`. -/
theorem inInterval_semantics :
    (∀ key start stop ringSize : Nat, key < ringSize → start < stop →
      (inInterval key start stop ringSize = true ↔ (start < key ∧ key ≤ stop))) ∧
    (∀ key start stop ringSize : Nat, key < ringSize → stop ≤ start →
      (inInterval key start stop ringSize = true ↔ (start < key ∨ key ≤ stop))) ∧
    inInterval 20 10 25 32 = true ∧ inInterval 25 25 5 32 = false ∧
    inInterval 30 25 5 32 = true ∧ inInterval 5 10 25 32 = false := by
  refine ⟨?_, ?_, by decide, by decide, by decide, by decide⟩
  · intro key start stop R _ hlt
    simp [inInterval, hlt]
  · intro key start stop R hkR hle
    have hnlt : ¬ start < stop := not_lt.mpr hle
    simp only [inInterval, if_neg hnlt]
    simp
    omega

/-- Witness for C1 at concrete inputs in both the non-wrapping and the
wrapping case. -/
theorem inInterval_semantics_witness :
    (inInterval 20 10 25 32 = true ↔ (10 < 20 ∧ 20 ≤ 25)) ∧
    (inInterval 30 25 5 32 = true ↔ (25 < 30 ∨ 30 ≤ 5)) :=
  ⟨inInterval_semantics.1 20 10 25 32 (by decide) (by decide),
   inInterval_semantics.2.1 30 25 5 32 (by decide) (by decide)⟩

/-- C2: `findSuccessor(keyString)` computes the key's identifier and runs the
loop the spec describes — while the key identifier is not in
`(current.id, current.successor.id]`, take the highest-indexed finger entry
whose identifier is in `(current.id, key]` (or current itself); stop when the
candidate's identifier equals the current node's, else fetch the candidate's
published state and continue; return the terminating node's successor. The
code-side `closestPrecedingNode` and `findSuccessor` coincide with the
spec-side definitions on every input. -/
theorem findSuccessor_matches_spec :
    (∀ (self : NodeState) (key : Nat),
      closestPrecedingNode self key = specClosestPrecedingNode self key) ∧
    (∀ (hashF : String → Nat → Nat) (net : String → Option NodeData)
      (self : NodeState) (keyStr : String) (fuel : Nat),
      findSuccessor hashF net self keyStr fuel =
        specFindSuccessor hashF net self keyStr fuel) :=
  ⟨closestPrecedingNode_eq_spec,
   fun hashF net self keyStr fuel =>
     lookupLoop_eq_specLoop hashF net (hashF keyStr self.m) fuel self⟩

/-- C3: a `fixFingers()` call with random draw `i` (any index below the
finger-table length, i.e. below `m`) looks up the successor of the
deterministic key string `url#finger<target>` for
`target = (self.id + 2^i) mod ringSize` and stores the result at slot `i`;
every other finger slot and every other node field is unchanged — exactly one
slot is refreshed per call. -/
theorem fixFingers_refreshes_one_slot :
    ∀ (hashF : String → Nat → Nat) (net : String → Option NodeData)
      (self : NodeState) (i fuel : Nat) (succ : NodeEntry),
    i < self.fingerTable.length →
    findSuccessor hashF net self
        (self.url ++ "#finger" ++ toString ((self.id + 2 ^ i) % self.ringSize))
        fuel = .ok succ →
    ∃ s', fixFingers hashF net self i fuel = .ok s' ∧
      s'.fingerTable[i]? = some (some succ) ∧
      (∀ j, j ≠ i → s'.fingerTable[j]? = self.fingerTable[j]?) ∧
      s'.fingerTable.length = self.fingerTable.length ∧
      s'.id = self.id ∧ s'.url = self.url ∧ s'.successor = self.successor ∧
      s'.predecessor = self.predecessor ∧ s'.kvStore = self.kvStore := by
  intro hashF net self i fuel succ hi hfs
  refine ⟨{ self with fingerTable := self.fingerTable.set i (some succ) },
    ?_, ?_, ?_, ?_, rfl, rfl, rfl, rfl, rfl⟩
  · simp only [fixFingers]
    rw [hfs]
  · exact List.getElem?_set_self hi
  · intro j hj
    exact List.getElem?_set_ne (fun h => hj h.symm)
  · exact List.length_set self.fingerTable i (some succ)

/-- Witness for C3: refreshing slot 0 on the single-node ring. -/
theorem fixFingers_refreshes_one_slot_witness :
    ∃ s', fixFingers demoHash failNet demoSolo 0 1 = .ok s' ∧
      s'.fingerTable[0]? = some (some demoSolo.successor) ∧
      (∀ j, j ≠ 0 → s'.fingerTable[j]? = demoSolo.fingerTable[j]?) ∧
      s'.fingerTable.length = demoSolo.fingerTable.length ∧
      s'.id = demoSolo.id ∧ s'.url = demoSolo.url ∧
      s'.successor = demoSolo.successor ∧
      s'.predecessor = demoSolo.predecessor ∧ s'.kvStore = demoSolo.kvStore :=
  fixFingers_refreshes_one_slot demoHash failNet demoSolo 0 1 demoSolo.successor
    (by decide) rfl

/-- C4 (code evaluated at the failing input): on a node whose successor
pointer names an unreachable peer, the periodic maintenance callback
propagates the fetch failure out of the tick instead of catching and logging
it — the `setInterval` callback in `src/server.ts` (lines 291–295) and
`Node.stabilize` contain no try/catch, contradicting the spec's requirement
that any error in a maintenance round is caught and logged and never
terminates the scheduler. -/
theorem scheduledTick_propagates_fetch_failure :
    scheduledTick demoHash failNet
      { mkNode demoHash "u1" 5 1000 with successor := { id := 1, url := "u2" } }
      0 1 = .error .fetchFailed := by
  rfl

/-- C5: `put(key, value, ttl)` with `ttl ≤ 0` fails immediately with the TTL
error, independent of the network and forwarding oracles (no lookup and no
forwarding), and leaves the node state — in particular the key-value store —
unchanged; with `ttl > 0` and an owner that is not this node, the put is
forwarded to the owner with `ttl − 1` and the forwarded response is relayed,
again leaving the local store unchanged. -/
theorem put_ttl_and_forwarding :
    (∀ (hashF : String → Nat → Nat) (net : String → Option NodeData)
       (fwd : String → String → String → Int → Except String String)
       (self : NodeState) (key value : String) (ttl : Int) (fuel : Nat),
       ttl ≤ 0 →
       putHandler hashF net fwd self key value ttl fuel = (.ttlExpired, self)) ∧
    (∀ (hashF : String → Nat → Nat) (net : String → Option NodeData)
       (fwd : String → String → String → Int → Except String String)
       (self : NodeState) (key value : String) (ttl : Int) (fuel : Nat)
       (succ : NodeEntry) (r : String),
       0 < ttl →
       findSuccessor hashF net self key fuel = .ok succ →
       succ.url ≠ self.url →
       fwd succ.url key value (ttl - 1) = .ok r →
       putHandler hashF net fwd self key value ttl fuel = (.relayed r, self)) := by
  constructor
  · intro hashF net fwd self key value ttl fuel h
    simp [putHandler, h]
  · intro hashF net fwd self key value ttl fuel succ r ht hfs hurl hfwd
    have hn : ¬ ttl ≤ 0 := not_le.mpr ht
    simp [putHandler, hn, hfs, hurl, hfwd]

/-- Witness for C5: a ttl-0 put fails with no state change; a ttl-2 put whose
owner is a different node relays the forwarded response. -/
theorem put_ttl_and_forwarding_witness :
    putHandler demoHash failNet (fun _ _ _ _ => .error "down") demoSolo
        "k" "v" 0 3 = (.ttlExpired, demoSolo) ∧
    putHandler demoHashK failNet (fun _ _ _ _ => .ok "stored") demoFwdNode
        "k" "v" 2 3 = (.relayed "stored", demoFwdNode) :=
  ⟨put_ttl_and_forwarding.1 demoHash failNet (fun _ _ _ _ => .error "down")
      demoSolo "k" "v" 0 3 (by decide),
   put_ttl_and_forwarding.2 demoHashK failNet (fun _ _ _ _ => .ok "stored")
      demoFwdNode "k" "v" 2 3 { id := 5, url := "u2" } "stored"
      (by decide) rfl (by decide) rfl⟩

/-- C6 counterexample: the lookup loop does NOT terminate for every sequence
of peer-state snapshots. In the concrete scenario, looking up key 9 from the
node rebuilt from `cexData` (identifier 10, successor identifier 11, one
finger entry `⟨11, "uB"⟩`) never succeeds: the interval test fails, the
closest preceding node is the finger entry (identifier 11 ≠ 10, so the
no-progress break does not fire), and fetching `"uB"` returns exactly the
same published data, so the loop re-enters the identical state forever —
every iteration budget is exhausted. -/
theorem lookup_can_run_forever : lookupDiverges cexHash cexNet 9 cexState := by
  intro fuel
  induction fuel with
  | zero => rfl
  | succ n ih =>
    have hstep : lookupLoop cexHash cexNet 9 (n + 1) cexState =
        lookupLoop cexHash cexNet 9 n cexState := rfl
    rw [hstep]
    exact ih

/-- C6 amended: a failed remote-state fetch aborts the lookup attempt and
surfaces the error to the caller; and the loop terminates whenever every
successfully fetched snapshot strictly decreases the clockwise ring distance
from the current node's identifier to the key — but termination is not
guaranteed for arbitrary snapshot sequences. -/
theorem lookup_fetch_failure_surfaces_and_progress_terminates :
    (∀ (hashF : String → Nat → Nat) (net : String → Option NodeData)
       (key fuel : Nat) (cur : NodeState),
       inInterval key cur.id cur.successor.id cur.ringSize = false →
       (closestPrecedingNode cur key).id ≠ cur.id →
       net (closestPrecedingNode cur key).url = none →
       lookupLoop hashF net key (fuel + 1) cur = .error .fetchFailed) ∧
    (∀ (hashF : String → Nat → Nat) (net : String → Option NodeData) (key : Nat),
       (∀ (s : NodeState) (data : NodeData),
          net (closestPrecedingNode s key).url = some data →
          clockwiseDist key (fetchNodeInfo hashF data) < clockwiseDist key s) →
       ∀ (fuel : Nat) (cur : NodeState), clockwiseDist key cur < fuel →
       lookupLoop hashF net key fuel cur ≠ .error .outOfFuel) := by
  constructor
  · intro hashF net key fuel cur h1 h2 h3
    simp [lookupLoop, h1, h2, h3]
  · intro hashF net key hprog fuel
    induction fuel with
    | zero => intro cur h; omega
    | succ n ih =>
      intro cur hlt
      simp only [lookupLoop]
      by_cases h1 : inInterval key cur.id cur.successor.id cur.ringSize
      · simp [h1]
      · by_cases h2 : (closestPrecedingNode cur key).id = cur.id
        · simp [h1, h2]
        · cases hnet : net (closestPrecedingNode cur key).url with
          | none => simp [h1, h2, hnet]
          | some data =>
            simp only [h1, h2, hnet, if_neg, if_false]
            have hd : clockwiseDist key (fetchNodeInfo hashF data) < n :=
              lt_of_lt_of_le (hprog cur data hnet) (Nat.lt_succ_iff.mp hlt)
            simpa [h1, h2] using ih (fetchNodeInfo hashF data) hd

/-- Witness for the amended C6: on the divergence state with an unreachable
network the lookup aborts with a fetch failure after one step, and on the
single-node ring the loop is not out of fuel at budget 1. -/
theorem lookup_fetch_failure_surfaces_witness :
    lookupLoop cexHash failNet 9 1 cexState = .error .fetchFailed ∧
    lookupLoop demoHash failNet 0 1 demoSolo ≠ .error .outOfFuel :=
  ⟨lookup_fetch_failure_surfaces_and_progress_terminates.1 cexHash failNet
      9 0 cexState (by decide) (by decide) rfl,
   lookup_fetch_failure_surfaces_and_progress_terminates.2 demoHash failNet 0
      (fun s data h => Option.noConfusion h) 1 demoSolo (by decide)⟩

/-- C7: on a node `a` whose ring pointers are already consistent — the
snapshot `b` fetched for `a.successor.url` stores `a`'s own entry as its
predecessor (this covers the single-node ring with `b = a`), and identifiers
are the hashes of urls — any number of stabilization rounds leaves both `a`'s
state (successor and predecessor included) and `b`'s state (its predecessor
included, after receiving the notify `a` sends) unchanged. -/
theorem stabilize_fixed_point :
    ∀ (hashF : String → Nat → Nat) (a b : NodeState) (n : Nat),
    b.predecessor = some a.selfEntry →
    a.successor.id = b.id →
    hashF a.url b.m = a.id →
    (a.successor.id = a.id → a.successor.url = a.url) →
    (stabilizeRound hashF)^[n] (a, b) = (a, b) :=
  fun hashF a b n hpred _hsucc hhash hdeg =>
    Function.iterate_fixed (stabilizeRound_fixed hashF a b hpred hhash hdeg) n

/-- Witness for C7: three stabilization rounds on the single-node ring leave
it untouched. -/
theorem stabilize_fixed_point_witness :
    (stabilizeRound demoHash)^[3] (demoSolo, demoSolo) = (demoSolo, demoSolo) :=
  stabilize_fixed_point demoHash demoSolo demoSolo 3 rfl rfl rfl (fun _ => rfl)

/-- C8: `hashToIdentifier` is deterministic — equal digest inputs and equal
`m` always yield the same identifier (the embedded function is pure, and the
external SHA-1 digest of a string is itself deterministic) — and for every
digest whose bytes are below 256 and every ring width `m ≥ 1` the result lies
in `[0, 2^m)`. -/
theorem hashToID_deterministic_and_bounded :
    (∀ (h₁ h₂ : List Nat) (m₁ m₂ : Nat), h₁ = h₂ → m₁ = m₂ →
       hashToID h₁ m₁ = hashToID h₂ m₂) ∧
    (∀ (hash : List Nat) (m : Nat), (∀ b ∈ hash, b < 256) → 1 ≤ m →
       hashToID hash m < 2 ^ m) := by
  constructor
  · intro h₁ h₂ m₁ m₂ e1 e2
    rw [e1, e2]
  · intro hash m hb _hm
    simp only [hashToID]
    have hmB : m ≤ 8 * ((m + 7) / 8) := by omega
    have hbytes : ∀ b ∈ hash.take ((m + 7) / 8), b < 256 :=
      fun b h => hb b (List.take_subset _ _ h)
    have hfold : (hash.take ((m + 7) / 8)).foldl (fun acc b => acc * 256 + b) 0 <
        256 ^ (hash.take ((m + 7) / 8)).length := by
      simpa using foldl_bytes_lt (hash.take ((m + 7) / 8)) 0 hbytes
    have hlen : (hash.take ((m + 7) / 8)).length ≤ (m + 7) / 8 := by
      rw [List.length_take]; exact min_le_left _ _
    have hid : (hash.take ((m + 7) / 8)).foldl (fun acc b => acc * 256 + b) 0 <
        2 ^ (8 * ((m + 7) / 8)) := by
      calc (hash.take ((m + 7) / 8)).foldl (fun acc b => acc * 256 + b) 0
          < 256 ^ (hash.take ((m + 7) / 8)).length := hfold
        _ ≤ 256 ^ ((m + 7) / 8) :=
            Nat.pow_le_pow_right (by norm_num) hlen
        _ = 2 ^ (8 * ((m + 7) / 8)) := by
            rw [pow_mul]; norm_num
    split
    · next hpos =>
      rw [Nat.div_lt_iff_lt_mul (Nat.pos_pow_of_pos _ (by norm_num))]
      calc (hash.take ((m + 7) / 8)).foldl (fun acc b => acc * 256 + b) 0
          < 2 ^ (8 * ((m + 7) / 8)) := hid
        _ = 2 ^ m * 2 ^ ((m + 7) / 8 * 8 - m) := by
            rw [← pow_add]
            congr 1
            omega
    · next hzero =>
      have : (m + 7) / 8 * 8 = m := by omega
      calc (hash.take ((m + 7) / 8)).foldl (fun acc b => acc * 256 + b) 0
          < 2 ^ (8 * ((m + 7) / 8)) := hid
        _ = 2 ^ m := by rw [Nat.mul_comm, this]

/-- Witness for C8 at a concrete three-byte digest and `m = 5`. -/
theorem hashToID_deterministic_and_bounded_witness :
    hashToID [255, 255, 255] 5 = hashToID [255, 255, 255] 5 ∧
    hashToID [255, 255, 255] 5 < 2 ^ 5 :=
  ⟨hashToID_deterministic_and_bounded.1 [255, 255, 255] [255, 255, 255] 5 5
      rfl rfl,
   hashToID_deterministic_and_bounded.2 [255, 255, 255] 5 (by decide) (by decide)⟩

/-- C9: after `join(null)` the node forms a single-node ring — predecessor,
successor and finger slot 0 all equal its own entry, so the successor's and
predecessor's identifiers equal its own; after `join(existingAddress)` the
successor is the result of running `findSuccessor(own url)` from the existing
node's fetched state, the predecessor is absent, and finger slot 0 equals the
new successor. -/
theorem join_postconditions :
    (∀ (hashF : String → Nat → Nat) (net : String → Option NodeData)
       (self : NodeState) (fuel : Nat), 0 < self.fingerTable.length →
       ∃ s', join hashF net self none fuel = .ok s' ∧
         s'.predecessor = some self.selfEntry ∧
         s'.successor = self.selfEntry ∧
         s'.fingerTable[0]? = some (some self.selfEntry) ∧
         s'.successor.id = self.id ∧
         s'.predecessor.map NodeEntry.id = some self.id) ∧
    (∀ (hashF : String → Nat → Nat) (net : String → Option NodeData)
       (self : NodeState) (url : String) (data : NodeData) (succ : NodeEntry)
       (fuel : Nat), 0 < self.fingerTable.length →
       net url = some data →
       findSuccessor hashF net (fetchNodeInfo hashF data) self.url fuel = .ok succ →
       ∃ s', join hashF net self (some url) fuel = .ok s' ∧
         s'.predecessor = none ∧ s'.successor = succ ∧
         s'.fingerTable[0]? = some (some succ)) := by
  constructor
  · intro hashF net self fuel hlen
    exact ⟨_, rfl, rfl, rfl, List.getElem?_set_self hlen, rfl, rfl⟩
  · intro hashF net self url data succ fuel hlen hnet hfs
    have hj : join hashF net self (some url) fuel = .ok
        { self with
            predecessor := none
            successor := succ
            fingerTable := self.fingerTable.set 0 (some succ) } := by
      simp only [join, hnet, hfs]
    exact ⟨_, hj, rfl, rfl, List.getElem?_set_self hlen⟩

/-- Witness for C9: a fresh node forms a single-node ring, and a fresh node
joining via the solo node at `"u"` adopts that ring's successor. -/
theorem join_postconditions_witness :
    (∃ s', join demoHash demoNet (mkNode demoHash "u3" 5 1000) none 1 = .ok s' ∧
       s'.predecessor = some (mkNode demoHash "u3" 5 1000).selfEntry ∧
       s'.successor = (mkNode demoHash "u3" 5 1000).selfEntry ∧
       s'.fingerTable[0]? = some (some (mkNode demoHash "u3" 5 1000).selfEntry) ∧
       s'.successor.id = (mkNode demoHash "u3" 5 1000).id ∧
       s'.predecessor.map NodeEntry.id = some (mkNode demoHash "u3" 5 1000).id) ∧
    (∃ s', join demoHash demoNet (mkNode demoHash "u3" 5 1000) (some "u") 1 = .ok s' ∧
       s'.predecessor = none ∧ s'.successor = demoSolo.successor ∧
       s'.fingerTable[0]? = some (some demoSolo.successor)) :=
  ⟨join_postconditions.1 demoHash demoNet (mkNode demoHash "u3" 5 1000) 1
      (by decide),
   join_postconditions.2 demoHash demoNet (mkNode demoHash "u3" 5 1000) "u"
      (publishData demoSolo) demoSolo.successor 1 (by decide) rfl rfl⟩

/-- C10: for every start value `s` and every key below the ring size,
`inInterval(key, s, s, ringSize)` is true — the start bound is not excluded
when start equals end, including `key = s` — and consequently on a node whose
successor identifier equals its own identifier the `findSuccessor` interval
test succeeds immediately: the lookup returns the node's successor for every
key and every network oracle (even one on which all fetches fail), so no peer
is contacted. -/
theorem inInterval_degenerate_and_solo_lookup :
    (∀ start key ringSize : Nat, key < ringSize →
       inInterval key start start ringSize = true) ∧
    (∀ (hashF : String → Nat → Nat) (net : String → Option NodeData)
       (self : NodeState) (keyStr : String) (fuel : Nat),
       self.successor.id = self.id →
       hashF keyStr self.m < self.ringSize →
       findSuccessor hashF net self keyStr (fuel + 1) = .ok self.successor) := by
  have hdeg : ∀ start key ringSize : Nat, key < ringSize →
      inInterval key start start ringSize = true := by
    intro s key R hk
    simp [inInterval]
    omega
  refine ⟨hdeg, ?_⟩
  intro hashF net self keyStr fuel hsolo hkey
  have h1 : inInterval (hashF keyStr self.m) self.id self.successor.id
      self.ringSize = true := by
    rw [hsolo]
    exact hdeg self.id (hashF keyStr self.m) self.ringSize hkey
  simp [findSuccessor, lookupLoop, h1, Except.map]

/-- Witness for C10: the degenerate interval contains its own start, and the
solo-ring lookup succeeds against the all-failures network. -/
theorem inInterval_degenerate_and_solo_lookup_witness :
    inInterval 25 25 25 32 = true ∧
    findSuccessor demoHash failNet demoSolo "k" 1 = .ok demoSolo.successor :=
  ⟨inInterval_degenerate_and_solo_lookup.1 25 25 32 (by decide),
   inInterval_degenerate_and_solo_lookup.2 demoHash failNet demoSolo "k" 0
      rfl (by decide)⟩

end Chord
